import Mathlib

/-!
Verification of the browser tooltip overlay of the Total-War-Attila-Map-Builder
repository (`docs/map-tooltips.js` and `out_svg/map-tooltips.js`), together with
a spec-level model of the minimum-area policy of the offline region-extraction
script.  JavaScript values are modelled by a JSON-like inductive type `JSValue`;
operations that can throw in JavaScript (property access and `Object.*` on
`undefined`/`null`) are modelled in the `Except String` monad.
-/

/-- Model of a JavaScript value as seen by the overlay scripts: JSON data plus
`undefined`.  Objects are ordered association lists, as JavaScript objects
enumerate their own keys in insertion order. -/
inductive JSValue where
  | undefined : JSValue
  | null : JSValue
  | bool : Bool → JSValue
  | num : Int → JSValue
  | str : String → JSValue
  | arr : List JSValue → JSValue
  | obj : List (String × JSValue) → JSValue
deriving Repr

/-- JavaScript truthiness: `undefined`, `null`, `false`, `0` and `""` are falsy;
every object and array (even empty) is truthy. -/
def jsTruthy : JSValue → Bool
  | .undefined => false
  | .null => false
  | .bool b => b
  | .num n => n != 0
  | .str s => s != ""
  | .arr _ => true
  | .obj _ => true

/-- Model of `typeof v === 'object'`: true for objects, arrays and `null`. -/
def isObjectType : JSValue → Bool
  | .null => true
  | .arr _ => true
  | .obj _ => true
  | _ => false

/-- Model of `Array.isArray v`. -/
def isArray : JSValue → Bool
  | .arr _ => true
  | _ => false

mutual
/-- JavaScript `String(v)` conversion. -/
def jsToString : JSValue → String
  | .undefined => "undefined"
  | .null => "null"
  | .bool b => if b then "true" else "false"
  | .num n => toString n
  | .str s => s
  | .arr xs => String.intercalate "," (jsElemStrings xs)
  | .obj _ => "[object Object]"

/-- Note that `Array.prototype.toString` renders `undefined`/`null` elements as `""`. -/
def jsElemStrings : List JSValue → List String
  | [] => []
  | .undefined :: xs => "" :: jsElemStrings xs
  | .null :: xs => "" :: jsElemStrings xs
  | x :: xs => jsToString x :: jsElemStrings xs
end

/-- Own-property read `v[k]`, assuming `v` is not `undefined`/`null`; returns
`undefined` when absent.  Arrays and strings own their canonical indices and
`length`; other primitives own nothing. -/
def getProp : JSValue → String → JSValue
  | .obj fs, k =>
      match fs.find? (fun f => f.1 == k) with
      | some f => f.2
      | none => .undefined
  | .arr xs, k =>
      if k == "length" then .num xs.length
      else
        match k.toNat? with
        | some i => if toString i == k then (xs.getD i .undefined) else .undefined
        | none => .undefined
  | .str s, k =>
      if k == "length" then .num s.length
      else
        match k.toNat? with
        | some i =>
            if toString i == k && i < s.length then .str (String.singleton (s.data.getD i default))
            else .undefined
        | none => .undefined
  | _, _ => .undefined

/-- Property read `v[k]` with JavaScript's throwing behaviour on
`undefined`/`null` bases. -/
def getPropE : JSValue → String → Except String JSValue
  | .undefined, _ => .error "TypeError: cannot read properties of undefined"
  | .null, _ => .error "TypeError: cannot read properties of null"
  | v, k => .ok (getProp v k)

/-- Model of `Object.prototype.hasOwnProperty.call v k`. -/
def hasOwn : JSValue → String → Bool
  | .obj fs, k => fs.any (fun f => f.1 == k)
  | .arr xs, k =>
      k == "length" ||
        (match k.toNat? with
         | some i => toString i == k && i < xs.length
         | none => false)
  | .str s, k =>
      k == "length" ||
        (match k.toNat? with
         | some i => toString i == k && i < s.length
         | none => false)
  | _, _ => false

/-- Model of `Object.entries v` for a non-`undefined`/`null` value: own enumerable
string-keyed entries. -/
def jsEntries : JSValue → List (String × JSValue)
  | .obj fs => fs
  | .arr xs => (List.range xs.length).zip xs |>.map (fun p => (toString p.1, p.2))
  | .str s => (List.range s.length).map
      (fun i => (toString i, .str (String.singleton (s.data.getD i default))))
  | _ => []

/-- Model of `Object.keys v` (assuming a safe base). -/
def jsKeys (v : JSValue) : List String := (jsEntries v).map Prod.fst

/-- Model of `Object.values v` (assuming a safe base). -/
def jsValues (v : JSValue) : List JSValue := (jsEntries v).map Prod.snd

/-- Model of `Object.keys v` with JavaScript's throwing behaviour on `undefined`/`null`. -/
def jsKeysE : JSValue → Except String (List String)
  | .undefined => .error "TypeError: Object.keys called on undefined"
  | .null => .error "TypeError: Object.keys called on null"
  | v => .ok (jsKeys v)

/-- Model of `Object.entries v` with JavaScript's throwing behaviour on
`undefined`/`null`. -/
def jsEntriesE : JSValue → Except String (List (String × JSValue))
  | .undefined => .error "TypeError: Object.entries called on undefined"
  | .null => .error "TypeError: Object.entries called on null"
  | v => .ok (jsEntries v)

/-- The apostrophe character, U+0027. -/
def apos : Char := Char.ofNat 39

/-- The double-quote character, U+0022. -/
def quot : Char := Char.ofNat 34

/-- One global single-character `String.prototype.replace` pass:
`s.replace(/c/g, rep)` (the replacement strings used contain no `$`). -/
def replaceChar (c : Char) (rep : List Char) (s : List Char) : List Char :=
  s.flatMap (fun a => if a = c then rep else [a])

/-- Function `esc` from `map-tooltips.js` (both copies are identical), on the character
list of the already-`String()`-converted input: five sequential global
replaces, `&` first. -/
def escChars (s : List Char) : List Char :=
  replaceChar apos "&#39;".data
    (replaceChar quot "&quot;".data
      (replaceChar '>' "&gt;".data
        (replaceChar '<' "&lt;".data
          (replaceChar '&' "&amp;".data s))))

/-- Function `esc` on strings: `String(s)` followed by the five replaces. -/
def escString (s : String) : String := String.mk (escChars s.data)

/-- Function `esc` as called in the scripts, on an arbitrary value. -/
def esc (v : JSValue) : String := escString (jsToString v)

/-- Reference per-character HTML escaping: what each single character becomes. -/
def escCharRef (c : Char) : List Char :=
  if c = '&' then "&amp;".data
  else if c = '<' then "&lt;".data
  else if c = '>' then "&gt;".data
  else if c = quot then "&quot;".data
  else if c = apos then "&#39;".data
  else [c]

/-- Reference HTML-escaping function: independent per-character replacement. -/
def refEscape (s : String) : String := String.mk (s.data.flatMap escCharRef)

/-- Function `locRegion` from `docs/map-tooltips.js`: localized region name when the
`regions` table owns the id, otherwise the raw id.  All property accesses are
guarded by truthiness, so the function never throws. -/
def locRegion (id : String) (loc : JSValue) : String :=
  if jsTruthy loc && jsTruthy (getProp loc "regions") && hasOwn (getProp loc "regions") id then
    jsToString (getProp (getProp loc "regions") id)
  else id

/-- Function `locCulture` from `docs/map-tooltips.js`: looks the key up in the
`factions` table, otherwise returns the raw key. -/
def locCulture (key : String) (loc : JSValue) : String :=
  if jsTruthy loc && jsTruthy (getProp loc "factions") && hasOwn (getProp loc "factions") key then
    jsToString (getProp (getProp loc "factions") key)
  else key

/-- Function `locUnit` from `docs/map-tooltips.js`.  The raw key is an arbitrary array
element, so the fallback returns it unchanged as a value; the table branch
returns `String(loc.units[key])`.  The property key is `String(key)` by
JavaScript's ToPropertyKey coercion. -/
def locUnit (key : JSValue) (loc : JSValue) : JSValue :=
  if jsTruthy loc && jsTruthy (getProp loc "units") &&
      hasOwn (getProp loc "units") (jsToString key) then
    .str (jsToString (getProp (getProp loc "units") (jsToString key)))
  else key

/-- The "No data" tooltip markup shared by both scripts, parametrised by the
title already chosen. -/
def noDataHTML (title : String) : String :=
  "<div>" ++ "<strong>" ++ escString title ++ "</strong>" ++
    "<div style=\"opacity:.8;margin-top:.25rem\">No data</div>" ++ "</div>"

/-- The bold title line shared by the data-bearing tooltip branches. -/
def titleDiv (title : String) : String :=
  "<div style=\"font-weight:700;margin-bottom:.25rem\">" ++ escString title ++ "</div>"

/-- A culture/resource section header line. -/
def sectionHeader (label : String) : String :=
  "<div style=\"margin:.35rem 0 .2rem;font-weight:600\">" ++ escString label ++ "</div>"

/-- The `(none)` body used when a section has no units. -/
def noneDiv : String := "<div style=\"opacity:.8;margin-left:.9rem\">(none)</div>"

/-- A `<ul>` of unit list items. -/
def unitList (items : String) : String :=
  "<ul style=\"margin:.1rem 0 .4rem .9rem;padding:0;list-style:disc\">" ++ items ++ "</ul>"

/-- Model of `units.map((u) => '<li>' + esc(locUnit(u, locData)) + '</li>').join('')`. -/
def unitItems (units : List JSValue) (locData : JSValue) : String :=
  String.join (units.map (fun u => "<li>" ++ esc (locUnit u locData) ++ "</li>"))

/-- Model of `String.prototype.localeCompare`, as deterministic lexicographic
comparison returning a sign. -/
def strLocaleCompare (a b : String) : Int :=
  match compare a b with
  | .lt => -1
  | .eq => 0
  | .gt => 1

/-- Insert into a sorted list with respect to a boolean comparator. -/
def insertLe {α : Type} (le : α → α → Bool) (x : α) : List α → List α
  | [] => [x]
  | y :: ys => if le x y then x :: y :: ys else y :: insertLe le x ys

/-- Deterministic comparator sort modelling `Array.prototype.sort(cmp)`. -/
def sortByLe {α : Type} (le : α → α → Bool) : List α → List α
  | [] => []
  | x :: xs => insertLe le x (sortByLe le xs)

/-- One section of the full (unfiltered) tooltip body, from one
`[culture, units]` entry of the province data. -/
def cultureSection (locData : JSValue) (entry : String × JSValue) : String :=
  let cultureLabel := locCulture entry.1 locData
  match entry.2 with
  | .arr us =>
      if us.length > 0 then sectionHeader cultureLabel ++ unitList (unitItems us locData)
      else sectionHeader cultureLabel ++ noneDiv
  | _ => sectionHeader cultureLabel ++ noneDiv

/-- Function `buildTooltipHTML` from `docs/map-tooltips.js`, in the `Except String`
monad: the operations that throw in JavaScript on `undefined`/`null`
(`Object.keys`, `Object.entries`, computed property access) use the throwing
models, exactly where the source guards them with truthiness and
`typeof`/`Array.isArray` tests. -/
def buildTooltipHTML (provinceId : String) (provinceData locData filterCulture : JSValue) :
    Except String String := do
  let title := locRegion provinceId locData
  let hasData ←
    if jsTruthy provinceData && isObjectType provinceData then do
      let ks ← jsKeysE provinceData
      pure (decide (ks.length > 0))
    else pure false
  if !hasData then
    return noDataHTML title
  let active :=
    if jsTruthy filterCulture && decide ((jsToString filterCulture).length > 0) then
      jsToString filterCulture
    else ""
  if active ≠ "" then
    let label := locCulture active locData
    let units ← if jsTruthy provinceData then getPropE provinceData active else pure .undefined
    match units with
    | .arr us =>
        if us.length > 0 then
          return titleDiv title ++ sectionHeader label ++ unitList (unitItems us locData)
        else
          return titleDiv title ++ sectionHeader label ++ noneDiv
    | _ => return titleDiv title ++ sectionHeader label ++ noneDiv
  else
    let entries ← jsEntriesE provinceData
    let sorted := sortByLe
      (fun a b => decide (strLocaleCompare (locCulture a.1 locData) (locCulture b.1 locData) ≤ 0))
      entries
    let sections := sorted.map (cultureSection locData)
    return titleDiv title ++ String.join sections

/-- Function `pretty` from `out_svg/map-tooltips.js`: underscores to spaces, whitespace
runs collapsed to a single space, then trimmed.  The collapse carries a flag
telling whether the previous character was whitespace. -/
def collapseWS (prevWS : Bool) : List Char → List Char
  | [] => []
  | c :: cs =>
      if c.isWhitespace then
        if prevWS then collapseWS true cs else ' ' :: collapseWS true cs
      else c :: collapseWS false cs

/-- Function `pretty` from `out_svg/map-tooltips.js` on a string input
(`String(s || '')` is the identity there). -/
def pretty (s : String) : String :=
  String.mk ((collapseWS false (s.data.map (fun c => if c = '_' then ' ' else c))).dropWhile
      (fun c => c = ' ') |>.reverse.dropWhile (fun c => c = ' ') |>.reverse)

/-- One resource section of the `out_svg` tooltip body. -/
def resourceSection (entry : String × JSValue) : String :=
  let resourceName := pretty entry.1
  match entry.2 with
  | .arr us =>
      if us.length > 0 then
        sectionHeader resourceName ++
          unitList (String.join (us.map (fun u => "<li>" ++ escString (pretty (jsToString u)) ++ "</li>")))
      else sectionHeader resourceName ++ noneDiv
  | _ => sectionHeader resourceName ++ noneDiv

/-- Function `buildTooltipHTML` from `out_svg/map-tooltips.js`: no localization and no
filter; "No data" whenever the province data or its `resources` member is
falsy. -/
def buildTooltipHTMLOut (provinceId : String) (provinceData : JSValue) :
    Except String String := do
  let title := pretty provinceId
  if !(jsTruthy provinceData) then
    return noDataHTML title
  let resources ← getPropE provinceData "resources"
  if !(jsTruthy resources) then
    return noDataHTML title
  let entries ← jsEntriesE resources
  let sections := entries.map resourceSection
  return titleDiv title ++ String.join sections

/-- Function `applyFilter` from `docs/map-tooltips.js`: for a selection value, computes
for each province id whether it receives the `is-highlight` class. -/
def applyFilter (regionData : JSValue) (hasData : Bool) (provinces : List String)
    (value : String) : List (String × Bool) :=
  let sel := value
  let enable := decide (sel.length > 0)
  provinces.map (fun pid =>
    let pdata := if hasData then getProp regionData pid else .undefined
    (pid, enable && jsTruthy pdata && hasOwn pdata sel))

/-- The key-union fallback of `setupCultureFilter`: iterate the values of the
region data, and for each truthy object value add its keys to an
insertion-ordered set. -/
def deriveOptions (regionData : JSValue) : List String :=
  (jsValues regionData).foldl
    (fun acc v =>
      if jsTruthy v && isObjectType v then
        (jsKeys v).foldl (fun a k => if a.contains k then a else a ++ [k]) acc
      else acc)
    []

/-- Option-list selection of `setupCultureFilter` (`docs/map-tooltips.js`,
lines 182-196): a non-empty fetched array is used as given; otherwise, when
region data is available, the options are derived from the dataset. -/
def cultureOptions (cultureList regionData : JSValue) (hasData : Bool) : List JSValue :=
  let options : List JSValue :=
    match cultureList with
    | .arr xs => if xs.length != 0 then xs else []
    | _ => []
  if options.length == 0 && hasData then (deriveOptions regionData).map .str else options

/-- Observable side effects issued by the overlay's initialization and
handlers: network fetches and DOM mutations. -/
inductive Effect where
  | fetchUrl : String → Effect
  | setInnerHTML : String → Effect
  | setDisplay : String → Effect
  | setLeft : Int → Effect
  | setTop : Int → Effect
  | toggleClass : String → String → Bool → Effect
deriving DecidableEq, Repr

/-- Whether an effect is a network fetch. -/
def Effect.isFetch : Effect → Bool
  | .fetchUrl _ => true
  | _ => false

/-- Whether an effect writes the tooltip's `display` style. -/
def Effect.isSetDisplay : Effect → Bool
  | .setDisplay _ => true
  | _ => false

/-- A DOM bounding rectangle, as read by `getBoundingClientRect`. -/
structure Rect where
  left : Int
  top : Int
  right : Int
  bottom : Int
deriving DecidableEq, Repr

/-- The pointer-event fields the handlers read. -/
structure PEvt where
  clientX : Int
  clientY : Int
deriving DecidableEq, Repr

/-- Function `positionTip` from `map-tooltips.js` as an effect sequence; the wrap and
tip rectangles are inputs because `getBoundingClientRect` reads layout. -/
def positionTipEffects (wrapRect tipRect : Rect) (evt : PEvt) : List Effect :=
  let x := evt.clientX - wrapRect.left + 10
  let y := evt.clientY - wrapRect.top + 10
  let overRight := tipRect.right - wrapRect.right
  let overBottom := tipRect.bottom - wrapRect.bottom
  [Effect.setLeft x, Effect.setTop y] ++
    (if overRight > 0 then [Effect.setLeft (max 0 (x - overRight - 12))] else []) ++
    (if overBottom > 0 then [Effect.setTop (max 0 (y - overBottom - 12))] else [])

/-- The three side-data fetches issued once when `init` runs
(`docs/map-tooltips.js`, lines 151-166). -/
def initFetchEffects : List Effect :=
  [Effect.fetchUrl "region_data.json", Effect.fetchUrl "loc_data.json",
   Effect.fetchUrl "cultures_list.json"]

/-- The `pointerenter` handler's effects: build the tooltip HTML from the
captured context, show the tip, position it.  An exception (never reached,
see `buildTooltipHTML_ok`) would abort the handler with no effects applied. -/
def pointerEnterEffects (pid : String) (pdata locData : JSValue) (filterVal : String)
    (wrapRect tipRect : Rect) (evt : PEvt) : List Effect :=
  match buildTooltipHTML pid pdata locData (.str filterVal) with
  | .ok html =>
      [Effect.setInnerHTML html, Effect.setDisplay "block"] ++
        positionTipEffects wrapRect tipRect evt
  | .error _ => []

/-- The `pointermove` handler's effects: refresh and show the tip only when it
is not already displayed as `block`, then position it. -/
def pointerMoveEffects (pid : String) (pdata locData : JSValue) (filterVal : String)
    (currentDisplay : String) (wrapRect tipRect : Rect) (evt : PEvt) : List Effect :=
  (if currentDisplay ≠ "block" then
    match buildTooltipHTML pid pdata locData (.str filterVal) with
    | .ok html => [Effect.setInnerHTML html, Effect.setDisplay "block"]
    | .error _ => []
  else []) ++ positionTipEffects wrapRect tipRect evt

/-- The `pointerleave` handler's effects: hide the tip. -/
def pointerLeaveEffects : List Effect := [Effect.setDisplay "none"]

/-- The filter-change handler's effects: one class toggle per province, per
`applyFilter`. -/
def filterChangeEffects (regionData : JSValue) (hasData : Bool) (provinces : List String)
    (value : String) : List Effect :=
  (applyFilter regionData hasData provinces value).map
    (fun p => Effect.toggleClass p.1 "is-highlight" p.2)

/-- The context captured by the handlers after the fetch promises settle. -/
structure InitOutcome where
  regionData : JSValue
  hasData : Bool
  locData : JSValue
  cultureList : JSValue
deriving Repr

/-- The promise pipeline of `docs/map-tooltips.js` (lines 151-166 and
213-222): `locFetch` has its own `.catch` resolving to `null` and
`culturesFetch` one resolving to `[]`, so `Promise.all` can only reject when
the region fetch (or its JSON parse) fails, and then the final `.catch`
attaches with `({}, false, null)` and sets up the filter with `[]`. -/
def initOutcome (regionRes locRes cultRes : Except String JSValue) : InitOutcome :=
  let locSettled : JSValue := match locRes with | .ok v => v | .error _ => .null
  let cultSettled : JSValue := match cultRes with | .ok v => v | .error _ => .arr []
  match regionRes with
  | .ok rd => ⟨rd, true, locSettled, cultSettled⟩
  | .error _ => ⟨.obj [], false, .null, .arr []⟩

/-- Function `attachHandlers`: every province in the document gets a handler context
`(pid, pdata)`, with `pdata = hasData ? regionData[pid] : undefined`. -/
def attachedHandlers (out : InitOutcome) (provinces : List String) :
    List (String × JSValue) :=
  provinces.map (fun pid =>
    (pid, if out.hasData then getProp out.regionData pid else .undefined))

/-- The overlay state the pointer and filter handlers mutate: the tooltip's
`display` style and `innerHTML`, and the per-province highlight classes. -/
structure OverlayState where
  display : String
  html : String
  highlights : List (String × Bool)
deriving Repr

/-- The events the overlay reacts to.  Pointer events carry the id of the
province they fire on. -/
inductive MapEvent where
  | pointerEnter : String → PEvt → MapEvent
  | pointerMove : String → PEvt → MapEvent
  | pointerLeave : String → MapEvent
  | filterChange : String → MapEvent

/-- One step of the overlay's event handling, acting on the overlay state with
the context captured at initialization.  A thrown exception (never reached)
would leave the state unchanged. -/
def stepEvent (out : InitOutcome) (provinces : List String) (filterVal : String)
    (st : OverlayState) : MapEvent → OverlayState
  | .pointerEnter pid _ =>
      let pdata := if out.hasData then getProp out.regionData pid else .undefined
      match buildTooltipHTML pid pdata out.locData (.str filterVal) with
      | .ok html => { st with html := html, display := "block" }
      | .error _ => st
  | .pointerMove pid _ =>
      if st.display ≠ "block" then
        let pdata := if out.hasData then getProp out.regionData pid else .undefined
        match buildTooltipHTML pid pdata out.locData (.str filterVal) with
        | .ok html => { st with html := html, display := "block" }
        | .error _ => st
      else st
  | .pointerLeave _ => { st with display := "none" }
  | .filterChange v =>
      { st with highlights := applyFilter out.regionData out.hasData provinces v }

/-- Modelled from the spec: the region-extraction script
(`attila_regions_to_svg.py`, invoked in the quickstart with `--min-area`) is
not among the sources; per spec sections 4.2 and 8, a detected region carries
an id and a pixel area. -/
structure DetectedRegion where
  id : String
  area : Nat
deriving DecidableEq, Repr

/-- Modelled from the spec: the minimum-area policy of the extraction
pipeline — regions with `area < min-area` are dropped entirely, regions with
`area ≥ min-area` are retained. -/
def survivingRegions (minArea : Nat) (regions : List DetectedRegion) : List DetectedRegion :=
  regions.filter (fun r => minArea ≤ r.area)

/-- Modelled from the spec: one SVG shape element identifier per surviving
region. -/
def emittedSVGIds (minArea : Nat) (regions : List DetectedRegion) : List String :=
  (survivingRegions minArea regions).map DetectedRegion.id

/-- Modelled from the spec: one JSON record identifier per surviving region. -/
def emittedJSONIds (minArea : Nat) (regions : List DetectedRegion) : List String :=
  (survivingRegions minArea regions).map DetectedRegion.id

/-- The five HTML entities `esc` can emit. -/
def entityList : List (List Char) :=
  ["&amp;".data, "&lt;".data, "&gt;".data, "&quot;".data, "&#39;".data]

/-- A character that must never appear literally in escaped output. -/
def isBadChar (c : Char) : Bool := c == '<' || c == '>' || c == quot || c == apos

/-- Whether the list starts with one of the five entities. -/
def startsWithEntity (l : List Char) : Bool :=
  entityList.any (fun e => l.take e.length == e)

/-- Every occurrence of `&` in the list begins one of the five entities. -/
def ampEntityOk : List Char → Bool
  | [] => true
  | c :: rest => ((c != '&') || startsWithEntity (c :: rest)) && ampEntityOk rest

/-! ## Helper lemmas -/

/-- Lemma that `buildTooltipHTML` never reaches a throwing operation: every risky call is
behind the source's truthiness / `typeof` / `Array.isArray` guards. -/
lemma buildTooltipHTML_ok (pid : String) (pd loc f : JSValue) :
    ∃ s, buildTooltipHTML pid pd loc f = .ok s := by
  cases pd <;>
    simp only [buildTooltipHTML, jsTruthy, isObjectType, Bool.false_and, Bool.true_and,
      Bool.and_false, Bool.and_true, jsKeysE, jsEntriesE, getPropE, bind, Except.bind,
      pure, Except.pure, if_false, if_true, Bool.not_false, Bool.not_true, ite_true,
      ite_false] <;>
    (repeat' split) <;>
    first
      | exact ⟨_, rfl⟩
      | simp_all

/-- The `out_svg` tooltip builder never reaches a throwing operation either. -/
lemma buildTooltipHTMLOut_ok (pid : String) (pd : JSValue) :
    ∃ s, buildTooltipHTMLOut pid pd = .ok s := by
  simp only [buildTooltipHTMLOut, bind, Except.bind, pure, Except.pure]
  by_cases h : jsTruthy pd = true
  · have hpe : getPropE pd "resources" = .ok (getProp pd "resources") := by
      cases pd <;> simp_all [jsTruthy, getPropE]
    simp only [h, Bool.not_true, if_false, hpe]
    cases hv : getProp pd "resources" <;>
      simp [jsTruthy, jsEntriesE] <;>
      first
        | exact ⟨_, rfl⟩
        | (split <;> exact ⟨_, rfl⟩)
  · have h' : jsTruthy pd = false := by simpa using h
    simp [h']

/-! ## Claim theorems -/

/-- C1: for every province id whose per-province data is `undefined` or an
empty object, `buildTooltipHTML` returns exactly the "No data" markup built
around the localized-or-raw title (`locRegion`; prettified raw id in the
`out_svg` copy), and `buildTooltipHTML` never throws for any combination of
province id, province data, localization data and filter value. -/
theorem tooltip_no_data_and_total :
    (∀ (pid : String) (pd loc f : JSValue), (buildTooltipHTML pid pd loc f).isOk = true) ∧
    (∀ (pid : String) (pd loc f : JSValue), pd = JSValue.undefined ∨ pd = JSValue.obj [] →
      buildTooltipHTML pid pd loc f = .ok (noDataHTML (locRegion pid loc))) ∧
    (∀ (pid : String) (pd : JSValue), (buildTooltipHTMLOut pid pd).isOk = true) ∧
    (∀ (pid : String) (pd : JSValue), pd = JSValue.undefined ∨ pd = JSValue.obj [] →
      buildTooltipHTMLOut pid pd = .ok (noDataHTML (pretty pid))) := by
  refine ⟨fun pid pd loc f => ?_, fun pid pd loc f h => ?_, fun pid pd => ?_, fun pid pd h => ?_⟩
  · obtain ⟨s, hs⟩ := buildTooltipHTML_ok pid pd loc f
    simp [hs, Except.isOk, Except.toBool]
  · rcases h with rfl | rfl <;> rfl
  · obtain ⟨s, hs⟩ := buildTooltipHTMLOut_ok pid pd
    simp [hs, Except.isOk, Except.toBool]
  · rcases h with rfl | rfl <;> rfl

/-- Witness for C1 at a concrete input: a region id with no data entry renders
the "No data" tooltip. -/
theorem tooltip_no_data_witness :
    buildTooltipHTML "reg_1" JSValue.undefined JSValue.null (JSValue.str "") =
      .ok (noDataHTML (locRegion "reg_1" JSValue.null)) :=
  tooltip_no_data_and_total.2.1 "reg_1" JSValue.undefined JSValue.null (JSValue.str "") (Or.inl rfl)

/-- A non-empty string has positive length. -/
lemma length_pos_of_ne_empty (s : String) (h : s ≠ "") : s.length > 0 := by
  cases hs : s.data with
  | nil => exact absurd (by cases s; simp_all) h
  | cons c cs => simp [← String.length_data, hs]

/-- C2: with a non-empty culture selection, a province is highlighted exactly
when its data object has the selection as an own key (province data being
objects, as the region-data schema prescribes); with the empty selection no
province is highlighted. -/
theorem applyFilter_highlight_iff :
    (∀ (fields : List (String × JSValue)) (provinces : List String) (sel : String),
      sel ≠ "" → (∀ p ∈ fields, ∃ gs, p.2 = JSValue.obj gs) →
      applyFilter (.obj fields) true provinces sel =
        provinces.map (fun pid => (pid, hasOwn (getProp (.obj fields) pid) sel))) ∧
    (∀ (rd : JSValue) (hd : Bool) (provinces : List String),
      applyFilter rd hd provinces "" = provinces.map (fun pid => (pid, false))) := by
  constructor
  · intro fields provinces sel hsel hobj
    have hlen : decide (sel.length > 0) = true := by
      simpa using length_pos_of_ne_empty sel hsel
    unfold applyFilter
    apply List.map_congr_left
    intro pid _
    simp only [if_true, hlen, Bool.true_and]
    have habs : (jsTruthy (getProp (.obj fields) pid) && hasOwn (getProp (.obj fields) pid) sel) =
        hasOwn (getProp (.obj fields) pid) sel := by
      simp only [getProp]
      cases hf : fields.find? (fun f => f.1 == pid) with
      | none => simp [jsTruthy, hasOwn]
      | some f =>
          obtain ⟨gs, hgs⟩ := hobj f (List.mem_of_find?_eq_some hf)
          simp [hgs, jsTruthy]
    rw [habs]
  · intro rd hd provinces
    unfold applyFilter
    simp

/-- Witness for C2 at a concrete input: with selection `"roman"`, the province
owning the key is highlighted and the one without data is not. -/
theorem applyFilter_highlight_witness :
    applyFilter (.obj [("p1", JSValue.obj [("roman", JSValue.arr [])])]) true
        ["p1", "p2"] "roman" = [("p1", true), ("p2", false)] := by
  have h := applyFilter_highlight_iff.1 [("p1", JSValue.obj [("roman", JSValue.arr [])])]
      ["p1", "p2"] "roman" (by decide)
      (by
        rintro p hp
        rw [List.mem_singleton] at hp
        exact ⟨[("roman", JSValue.arr [])], by rw [hp]⟩)
  rw [h]
  rfl

/-- C3: for every combination of the three side-data fetches succeeding or
failing, hover handlers are attached to every province; a region-data failure
yields the empty fallback context (raw ids, `null` localization, empty culture
list), a localization failure yields `null` localization, a cultures failure
yields the empty list, and in the fallback context every tooltip is the
"No data" markup around the raw id. -/
theorem init_degrades_gracefully (regionRes locRes cultRes : Except String JSValue)
    (provinces : List String) :
    ((attachedHandlers (initOutcome regionRes locRes cultRes) provinces).map Prod.fst =
        provinces) ∧
    (∀ e, regionRes = .error e →
        initOutcome regionRes locRes cultRes = ⟨.obj [], false, .null, .arr []⟩) ∧
    (∀ e, locRes = .error e → (initOutcome regionRes locRes cultRes).locData = .null) ∧
    (∀ e, cultRes = .error e → (initOutcome regionRes locRes cultRes).cultureList = .arr []) ∧
    (∀ (pid fv : String),
        buildTooltipHTML pid .undefined .null (.str fv) = .ok (noDataHTML pid)) := by
  refine ⟨?_, ?_, ?_, ?_, ?_⟩
  · simp only [attachedHandlers, List.map_map]
    exact List.map_id provinces
  · rintro e rfl
    rfl
  · rintro e rfl
    cases regionRes <;> rfl
  · rintro e rfl
    cases regionRes <;> rfl
  · intro pid fv
    rfl

/-- Witness for C3 at a concrete input: a failed region fetch settles into the
empty fallback context. -/
theorem init_degrades_witness :
    initOutcome (.error "HTTP 404") (.ok (.obj [("regions", .obj [])])) (.ok (.arr [])) =
      ⟨.obj [], false, .null, .arr []⟩ :=
  (init_degrades_gracefully (.error "HTTP 404") (.ok (.obj [("regions", .obj [])]))
      (.ok (.arr [])) []).2.1 "HTTP 404" rfl

/-- C4: each of the three localization lookups returns the string stored in
its name table (`regions`, `factions`, `units`) when the table owns the key,
and returns the raw key unchanged otherwise — in particular when the
localization value is `null`. -/
theorem loc_lookup_fallback :
    (∀ (k : String) (loc : JSValue) (v : String),
        jsTruthy loc = true → jsTruthy (getProp loc "regions") = true →
        hasOwn (getProp loc "regions") k = true →
        getProp (getProp loc "regions") k = .str v → locRegion k loc = v) ∧
    (∀ (k : String) (loc : JSValue),
        (jsTruthy loc && jsTruthy (getProp loc "regions") &&
          hasOwn (getProp loc "regions") k) = false → locRegion k loc = k) ∧
    (∀ k : String, locRegion k .null = k) ∧
    (∀ (k : String) (loc : JSValue) (v : String),
        jsTruthy loc = true → jsTruthy (getProp loc "factions") = true →
        hasOwn (getProp loc "factions") k = true →
        getProp (getProp loc "factions") k = .str v → locCulture k loc = v) ∧
    (∀ (k : String) (loc : JSValue),
        (jsTruthy loc && jsTruthy (getProp loc "factions") &&
          hasOwn (getProp loc "factions") k) = false → locCulture k loc = k) ∧
    (∀ k : String, locCulture k .null = k) ∧
    (∀ (k : String) (loc : JSValue) (v : String),
        jsTruthy loc = true → jsTruthy (getProp loc "units") = true →
        hasOwn (getProp loc "units") k = true →
        getProp (getProp loc "units") k = .str v → locUnit (.str k) loc = .str v) ∧
    (∀ (k : String) (loc : JSValue),
        (jsTruthy loc && jsTruthy (getProp loc "units") &&
          hasOwn (getProp loc "units") k) = false → locUnit (.str k) loc = .str k) ∧
    (∀ k : String, locUnit (.str k) .null = .str k) := by
  refine ⟨?_, ?_, ?_, ?_, ?_, ?_, ?_, ?_, ?_⟩
  · intro k loc v h1 h2 h3 h4
    simp [locRegion, h1, h2, h3, h4, jsToString]
  · intro k loc h
    simp [locRegion, h]
  · intro k
    rfl
  · intro k loc v h1 h2 h3 h4
    simp [locCulture, h1, h2, h3, h4, jsToString]
  · intro k loc h
    simp [locCulture, h]
  · intro k
    rfl
  · intro k loc v h1 h2 h3 h4
    simp [locUnit, jsToString, h1, h2, h3, h4]
  · intro k loc h
    simp only [locUnit, jsToString, h]
    rfl
  · intro k
    rfl

/-- Witness for C4 at a concrete input: an owned key is localized. -/
theorem loc_lookup_witness :
    locRegion "r1" (.obj [("regions", .obj [("r1", .str "Rome")])]) = "Rome" :=
  loc_lookup_fallback.1 "r1" (.obj [("regions", .obj [("r1", .str "Rome")])]) "Rome"
    (by decide) (by decide) (by decide) rfl

/-- Every `positionTip` effect is a `setLeft` or `setTop`. -/
lemma positionTip_shape (w t : Rect) (e : PEvt) :
    ∀ x ∈ positionTipEffects w t e,
      (∃ n, x = Effect.setLeft n) ∨ (∃ n, x = Effect.setTop n) := by
  intro x hx
  simp only [positionTipEffects, List.mem_append, List.mem_cons, List.mem_singleton] at hx
  rcases hx with (h | h) | h
  · rcases h with h | h
    · exact Or.inl ⟨_, h⟩
    · rcases h with h | h
      · exact Or.inr ⟨_, h⟩
      · simp at h
  · split at h
    · rw [List.mem_singleton] at h
      exact Or.inl ⟨_, h⟩
    · simp at h
  · split at h
    · rw [List.mem_singleton] at h
      exact Or.inr ⟨_, h⟩
    · simp at h

/-- Lemma that `positionTip` issues no fetch. -/
lemma positionTip_no_fetch (w t : Rect) (e : PEvt) :
    (positionTipEffects w t e).all (fun x => !x.isFetch) = true := by
  rw [List.all_eq_true]
  intro x hx
  rcases positionTip_shape w t e x hx with ⟨n, rfl⟩ | ⟨n, rfl⟩ <;> rfl

/-- C5: each side-data file is fetched exactly once at initialization; no
pointer or filter handler issues a fetch; and tooltip HTML and highlight
state are functions of the captured context alone — equal inputs give
identical results. -/
theorem handlers_fetch_once_and_pure :
    (initFetchEffects.count (Effect.fetchUrl "region_data.json") = 1 ∧
     initFetchEffects.count (Effect.fetchUrl "loc_data.json") = 1 ∧
     initFetchEffects.count (Effect.fetchUrl "cultures_list.json") = 1 ∧
     initFetchEffects.length = 3) ∧
    (∀ (pid : String) (pdata loc : JSValue) (fv : String) (w t : Rect) (e : PEvt),
        (pointerEnterEffects pid pdata loc fv w t e).all (fun x => !x.isFetch) = true) ∧
    (∀ (pid : String) (pdata loc : JSValue) (fv d : String) (w t : Rect) (e : PEvt),
        (pointerMoveEffects pid pdata loc fv d w t e).all (fun x => !x.isFetch) = true) ∧
    (pointerLeaveEffects.all (fun x => !x.isFetch) = true) ∧
    (∀ (rd : JSValue) (hd : Bool) (provs : List String) (v : String),
        (filterChangeEffects rd hd provs v).all (fun x => !x.isFetch) = true) ∧
    (∀ (pid pid' : String) (pdata pdata' loc loc' : JSValue) (fv fv' : String),
        pid = pid' → pdata = pdata' → loc = loc' → fv = fv' →
        buildTooltipHTML pid pdata loc (.str fv) =
          buildTooltipHTML pid' pdata' loc' (.str fv')) ∧
    (∀ (rd rd' : JSValue) (hd : Bool) (provs : List String) (v v' : String),
        rd = rd' → v = v' → applyFilter rd hd provs v = applyFilter rd' hd provs v') := by
  refine ⟨by decide, ?_, ?_, by decide, ?_, ?_, ?_⟩
  · intro pid pdata loc fv w t e
    unfold pointerEnterEffects
    cases h : buildTooltipHTML pid pdata loc (.str fv) <;>
      rw [List.all_eq_true] <;> intro x hx
    · simp at hx
    · rw [List.mem_append] at hx
      rcases hx with hx | hx
      · simp only [List.mem_cons, List.mem_singleton] at hx
        rcases hx with rfl | rfl | h0 <;> first | rfl | simp at h0
      · rcases positionTip_shape w t e x hx with ⟨n, rfl⟩ | ⟨n, rfl⟩ <;> rfl
  · intro pid pdata loc fv d w t e
    unfold pointerMoveEffects
    rw [List.all_eq_true]
    intro x hx
    rw [List.mem_append] at hx
    rcases hx with hx | hx
    · split at hx
      · cases h : buildTooltipHTML pid pdata loc (.str fv) <;> rw [h] at hx
        · simp at hx
        · simp only [List.mem_cons, List.mem_singleton] at hx
          rcases hx with rfl | rfl | h0 <;> first | rfl | simp at h0
      · simp at hx
    · rcases positionTip_shape w t e x hx with ⟨n, rfl⟩ | ⟨n, rfl⟩ <;> rfl
  · intro rd hd provs v
    rw [List.all_eq_true]
    intro x hx
    rw [filterChangeEffects, List.mem_map] at hx
    obtain ⟨p, _, rfl⟩ := hx
    rfl
  · intro pid pid' pdata pdata' loc loc' fv fv' h1 h2 h3 h4
    rw [h1, h2, h3, h4]
  · intro rd rd' hd provs v v' h1 h2
    rw [h1, h2]

/-- Witness for C5 at a concrete input: two identical invocations produce the
identical tooltip HTML. -/
theorem handlers_pure_witness :
    buildTooltipHTML "p1" (JSValue.obj [("roman", JSValue.arr [.str "u1"])]) JSValue.null
        (.str "roman") =
      buildTooltipHTML "p1" (JSValue.obj [("roman", JSValue.arr [.str "u1"])]) JSValue.null
        (.str "roman") :=
  handlers_fetch_once_and_pure.2.2.2.2.2.1 "p1" "p1"
    (JSValue.obj [("roman", JSValue.arr [.str "u1"])])
    (JSValue.obj [("roman", JSValue.arr [.str "u1"])]) JSValue.null JSValue.null
    "roman" "roman" rfl rfl rfl rfl

/-- C6: (spec-modelled) a detected region below the minimum area is dropped
entirely — it survives into neither the SVG ids nor the JSON ids (ids taken
as unique across regions) — while a region at or above the threshold is
retained in both. -/
theorem min_area_policy (minArea : Nat) (regions : List DetectedRegion)
    (r : DetectedRegion) (hr : r ∈ regions) :
    (r.area < minArea →
        r ∉ survivingRegions minArea regions ∧
        ((regions.map DetectedRegion.id).Nodup →
          r.id ∉ emittedSVGIds minArea regions ∧ r.id ∉ emittedJSONIds minArea regions)) ∧
    (minArea ≤ r.area →
        r ∈ survivingRegions minArea regions ∧
        r.id ∈ emittedSVGIds minArea regions ∧ r.id ∈ emittedJSONIds minArea regions) := by
  constructor
  · intro hlt
    have hnotsurv : r ∉ survivingRegions minArea regions := by
      intro hmem
      rw [survivingRegions, List.mem_filter] at hmem
      simp only [decide_eq_true_eq] at hmem
      omega
    refine ⟨hnotsurv, fun hnd => ?_⟩
    have hid : r.id ∉ emittedSVGIds minArea regions := by
      intro hmem
      rw [emittedSVGIds, List.mem_map] at hmem
      obtain ⟨r', hr', hid'⟩ := hmem
      have hr'mem : r' ∈ regions := (List.mem_filter.mp hr').1
      have : r' = r := List.inj_on_of_nodup_map hnd hr'mem hr hid'
      exact hnotsurv (this ▸ hr')
    exact ⟨hid, hid⟩
  · intro hge
    have hsurv : r ∈ survivingRegions minArea regions := by
      rw [survivingRegions, List.mem_filter]
      exact ⟨hr, by simpa using hge⟩
    exact ⟨hsurv, List.mem_map_of_mem _ hsurv, List.mem_map_of_mem _ hsurv⟩

/-- Witness for C6 at a concrete input: an area-3 region is dropped under a
threshold of 64. -/
theorem min_area_witness :
    (⟨"tiny", 3⟩ : DetectedRegion) ∉ survivingRegions 64 [⟨"tiny", 3⟩, ⟨"big", 100⟩] :=
  ((min_area_policy 64 [⟨"tiny", 3⟩, ⟨"big", 100⟩] ⟨"tiny", 3⟩ (by decide)).1 (by decide)).1

/-- Sorted insertion adds exactly one element. -/
lemma insertLe_length {α : Type} (le : α → α → Bool) (x : α) (l : List α) :
    (insertLe le x l).length = l.length + 1 := by
  induction l with
  | nil => rfl
  | cons y ys ih =>
      simp only [insertLe]
      split <;> simp [ih]

/-- Comparator sort preserves length. -/
lemma sortByLe_length {α : Type} (le : α → α → Bool) (l : List α) :
    (sortByLe le l).length = l.length := by
  induction l with
  | nil => rfl
  | cons x xs ih => simp [sortByLe, insertLe_length, ih]

/-- C7: every handler's work is bounded and runs to completion: `applyFilter`
touches each province exactly once, the unfiltered tooltip body has exactly
one section per entry of the province data, and `buildTooltipHTML` always
terminates with a result. -/
theorem handler_work_bounded :
    (∀ (rd : JSValue) (hd : Bool) (provinces : List String) (v : String),
        (applyFilter rd hd provinces v).length = provinces.length) ∧
    (∀ (pid : String) (fields : List (String × JSValue)) (loc : JSValue), fields ≠ [] →
        ∃ sections : List String, sections.length = fields.length ∧
          buildTooltipHTML pid (.obj fields) loc (.str "") =
            .ok (titleDiv (locRegion pid loc) ++ String.join sections)) ∧
    (∀ (pid : String) (pd loc f : JSValue), (buildTooltipHTML pid pd loc f).isOk = true) ∧
    (∀ (rd : JSValue) (hd : Bool) (provinces : List String) (v : String),
        (filterChangeEffects rd hd provinces v).length = provinces.length) := by
  refine ⟨?_, ?_, ?_, ?_⟩
  · intro rd hd provinces v
    simp [applyFilter]
  · intro pid fields loc hne
    obtain ⟨f, fs, rfl⟩ : ∃ f fs, fields = f :: fs := by
      cases fields with
      | nil => exact absurd rfl hne
      | cons f fs => exact ⟨f, fs, rfl⟩
    refine ⟨(sortByLe
        (fun a b => decide (strLocaleCompare (locCulture a.1 loc) (locCulture b.1 loc) ≤ 0))
        (f :: fs)).map (cultureSection loc), ?_, ?_⟩
    · rw [List.length_map, sortByLe_length]
    · simp [buildTooltipHTML, bind, Except.bind, pure, Except.pure, jsKeysE, jsEntriesE,
        jsTruthy, isObjectType, jsKeys, jsEntries]
  · intro pid pd loc f
    obtain ⟨s, hs⟩ := buildTooltipHTML_ok pid pd loc f
    simp [hs, Except.isOk, Except.toBool]
  · intro rd hd provinces v
    simp [filterChangeEffects, applyFilter]

/-- Witness for C7 at a concrete input: a one-entry province data object
yields exactly one tooltip section. -/
theorem handler_work_witness :
    ∃ sections : List String, sections.length = 1 ∧
      buildTooltipHTML "p" (.obj [("roman", JSValue.arr [])]) JSValue.null (.str "") =
        .ok (titleDiv (locRegion "p" JSValue.null) ++ String.join sections) :=
  handler_work_bounded.2.1 "p" [("roman", JSValue.arr [])] JSValue.null
    (List.cons_ne_nil _ _)

/-- The five-replace pipeline distributes over append. -/
lemma escChars_append (l1 l2 : List Char) :
    escChars (l1 ++ l2) = escChars l1 ++ escChars l2 := by
  simp only [escChars, replaceChar, List.flatMap_append]

/-- On a single character the pipeline agrees with the per-character
reference map. -/
lemma escChars_single (c : Char) : escChars [c] = escCharRef c := by
  by_cases h1 : c = '&'
  · subst h1; rfl
  · by_cases h2 : c = '<'
    · subst h2; rfl
    · by_cases h3 : c = '>'
      · subst h3; rfl
      · by_cases h4 : c = quot
        · subst h4; rfl
        · by_cases h5 : c = apos
          · subst h5; rfl
          · simp [escChars, replaceChar, escCharRef, h1, h2, h3, h4, h5]

/-- The sequential five-replace pipeline is the per-character reference map:
the replacement entities contain none of the characters replaced later. -/
lemma escChars_eq_flatMap (s : List Char) : escChars s = s.flatMap escCharRef := by
  induction s with
  | nil => rfl
  | cons c cs ih =>
      have hsplit : c :: cs = [c] ++ cs := rfl
      rw [hsplit, escChars_append, List.flatMap_append, escChars_single, ih]
      simp

/-- No escaped block contains a literal `<`, `>`, `\"` or apostrophe. -/
lemma escCharRef_no_bad (c : Char) : ∀ c' ∈ escCharRef c, isBadChar c' = false := by
  intro c' hc'
  by_cases h1 : c = '&'
  · subst h1; revert c'; decide
  · by_cases h2 : c = '<'
    · subst h2; revert c'; decide
    · by_cases h3 : c = '>'
      · subst h3; revert c'; decide
      · by_cases h4 : c = quot
        · subst h4; revert c'; decide
        · by_cases h5 : c = apos
          · subst h5; revert c'; decide
          · simp only [escCharRef, h1, h2, h3, h4, h5, if_false, List.mem_singleton] at hc'
            subst hc'
            simp [isBadChar, h2, h3, h4, h5]

/-- Starting with an entity is stable under appending on the right. -/
lemma startsWithEntity_append (l1 l2 : List Char) (h : startsWithEntity l1 = true) :
    startsWithEntity (l1 ++ l2) = true := by
  rw [startsWithEntity, List.any_eq_true] at h ⊢
  obtain ⟨e, he, hte⟩ := h
  refine ⟨e, he, ?_⟩
  rw [beq_iff_eq] at hte ⊢
  have hlen : e.length ≤ l1.length := by
    have := congrArg List.length hte
    simp only [List.length_take] at this
    omega
  rw [List.take_append_of_le_length hlen]
  exact hte

/-- The amp-entity invariant is closed under concatenation. -/
lemma ampEntityOk_append (a b : List Char) (ha : ampEntityOk a = true)
    (hb : ampEntityOk b = true) : ampEntityOk (a ++ b) = true := by
  induction a with
  | nil => simpa using hb
  | cons c a' ih =>
      rw [ampEntityOk, Bool.and_eq_true] at ha
      rw [List.cons_append, ampEntityOk, Bool.and_eq_true]
      refine ⟨?_, ih ha.2⟩
      rcases Bool.or_eq_true_iff.mp ha.1 with h | h
      · exact Bool.or_eq_true_iff.mpr (Or.inl h)
      · refine Bool.or_eq_true_iff.mpr (Or.inr ?_)
        have := startsWithEntity_append (c :: a') b h
        simpa using this

/-- Each escaped block satisfies the amp-entity invariant. -/
lemma ampEntityOk_escCharRef (c : Char) : ampEntityOk (escCharRef c) = true := by
  by_cases h1 : c = '&'
  · subst h1; decide
  · by_cases h2 : c = '<'
    · subst h2; decide
    · by_cases h3 : c = '>'
      · subst h3; decide
      · by_cases h4 : c = quot
        · subst h4; decide
        · by_cases h5 : c = apos
          · subst h5; decide
          · simp only [escCharRef, h1, h2, h3, h4, h5, if_false]
            rw [ampEntityOk]
            simp [ampEntityOk, h1]

/-- A concatenation of escaped blocks satisfies the amp-entity invariant. -/
lemma ampEntityOk_flatMap (s : List Char) :
    ampEntityOk (s.flatMap escCharRef) = true := by
  induction s with
  | nil => decide
  | cons c cs ih =>
      rw [List.flatMap_cons]
      exact ampEntityOk_append _ _ (ampEntityOk_escCharRef c) ih

/-- The characters of an escaped string, in reference form. -/
lemma escString_data (s : String) : (escString s).data = s.data.flatMap escCharRef := by
  rw [escString, escChars_eq_flatMap]

/-- C8: `esc` equals the reference HTML-escaping function; its output contains
no literal `<`, `>`, `\"` or apostrophe; and every `&` in the output starts
one of the five entities — so names cannot inject markup. -/
theorem esc_reference_and_safety :
    (∀ s : String, escString s = refEscape s) ∧
    (∀ (s : String), ∀ c ∈ (escString s).data, isBadChar c = false) ∧
    (∀ s : String, ampEntityOk (escString s).data = true) := by
  refine ⟨?_, ?_, ?_⟩
  · intro s
    rw [escString, refEscape, escChars_eq_flatMap]
  · intro s c hc
    rw [escString_data, List.mem_flatMap] at hc
    obtain ⟨a, _, hca⟩ := hc
    exact escCharRef_no_bad a c hca
  · intro s
    rw [escString_data]
    exact ampEntityOk_flatMap s.data

/-- Witness for C8 at a concrete input: the `&` produced by escaping `<` is
not a dangerous character. -/
theorem esc_safety_witness : isBadChar '&' = false :=
  esc_reference_and_safety.2.1 "<" '&' (by decide)

/-- Membership in the insertion-ordered key-set accumulator. -/
lemma mem_addKeys (ks : List String) (acc : List String) (k : String) :
    k ∈ ks.foldl (fun a k' => if a.contains k' then a else a ++ [k']) acc ↔
      k ∈ acc ∨ k ∈ ks := by
  induction ks generalizing acc with
  | nil => simp
  | cons k' ks ih =>
      rw [List.foldl_cons, ih]
      by_cases h : acc.contains k' = true
      · have hk' : k' ∈ acc := by simpa using h
        rw [if_pos h, List.mem_cons]
        constructor
        · rintro (h1 | h1)
          · exact Or.inl h1
          · exact Or.inr (Or.inr h1)
        · rintro (h1 | rfl | h1)
          · exact Or.inl h1
          · exact Or.inl hk'
          · exact Or.inr h1
      · rw [if_neg h, List.mem_append, List.mem_singleton, List.mem_cons]
        tauto

/-- The insertion-ordered key-set accumulator stays duplicate-free. -/
lemma nodup_addKeys (ks : List String) (acc : List String) (h : acc.Nodup) :
    (ks.foldl (fun a k' => if a.contains k' then a else a ++ [k']) acc).Nodup := by
  induction ks generalizing acc with
  | nil => simpa
  | cons k' ks ih =>
      rw [List.foldl_cons]
      apply ih
      by_cases hc : acc.contains k' = true
      · rwa [if_pos hc]
      · rw [if_neg hc, List.nodup_append]
        refine ⟨h, List.nodup_singleton k', ?_⟩
        intro a ha hmem
        rw [List.mem_singleton] at hmem
        have hnot : k' ∉ acc := by simpa using hc
        exact hnot (hmem ▸ ha)

/-- Membership across the per-province fold of `deriveOptions`. -/
lemma mem_deriveFold (vs : List JSValue) (acc : List String) (k : String) :
    k ∈ vs.foldl
        (fun acc v =>
          if jsTruthy v && isObjectType v then
            (jsKeys v).foldl (fun a k' => if a.contains k' then a else a ++ [k']) acc
          else acc) acc ↔
      k ∈ acc ∨ ∃ v ∈ vs, (jsTruthy v && isObjectType v) = true ∧ k ∈ jsKeys v := by
  induction vs generalizing acc with
  | nil => simp
  | cons v vs ih =>
      rw [List.foldl_cons, ih]
      by_cases hv : (jsTruthy v && isObjectType v) = true
      · rw [if_pos hv]
        rw [mem_addKeys]
        constructor
        · rintro ((h1 | h1) | h1)
          · exact Or.inl h1
          · exact Or.inr ⟨v, List.mem_cons_self v vs, hv, h1⟩
          · obtain ⟨w, hw, hww⟩ := h1
            exact Or.inr ⟨w, List.mem_cons_of_mem v hw, hww⟩
        · rintro (h1 | ⟨w, hw, hww⟩)
          · exact Or.inl (Or.inl h1)
          · rcases List.mem_cons.mp hw with rfl | hw'
            · exact Or.inl (Or.inr hww.2)
            · exact Or.inr ⟨w, hw', hww⟩
      · rw [if_neg hv]
        constructor
        · rintro (h1 | h1)
          · exact Or.inl h1
          · obtain ⟨w, hw, hww⟩ := h1
            exact Or.inr ⟨w, List.mem_cons_of_mem v hw, hww⟩
        · rintro (h1 | ⟨w, hw, hww⟩)
          · exact Or.inl h1
          · rcases List.mem_cons.mp hw with rfl | hw'
            · exact absurd hww.1 hv
            · exact Or.inr ⟨w, hw', hww⟩

/-- The per-province fold of `deriveOptions` stays duplicate-free. -/
lemma nodup_deriveFold (vs : List JSValue) (acc : List String) (h : acc.Nodup) :
    (vs.foldl
        (fun acc v =>
          if jsTruthy v && isObjectType v then
            (jsKeys v).foldl (fun a k' => if a.contains k' then a else a ++ [k']) acc
          else acc) acc).Nodup := by
  induction vs generalizing acc with
  | nil => simpa
  | cons v vs ih =>
      rw [List.foldl_cons]
      apply ih
      by_cases hv : (jsTruthy v && isObjectType v) = true
      · rw [if_pos hv]
        exact nodup_addKeys _ _ h
      · rwa [if_neg hv]

/-- C9: a non-empty fetched cultures array is used as given; with an empty
fetched list and region data present, the options are exactly the union of
the culture keys of the provinces' data objects, each key appearing once. -/
theorem culture_options_derivation :
    (∀ (xs : List JSValue) (rd : JSValue) (hd : Bool), xs ≠ [] →
        cultureOptions (.arr xs) rd hd = xs) ∧
    (∀ fields : List (String × JSValue),
        cultureOptions (.arr []) (.obj fields) true = (deriveOptions (.obj fields)).map .str) ∧
    (∀ (fields : List (String × JSValue)) (k : String),
        k ∈ deriveOptions (.obj fields) ↔
          ∃ p ∈ fields, (jsTruthy p.2 && isObjectType p.2) = true ∧ k ∈ jsKeys p.2) ∧
    (∀ rd : JSValue, (deriveOptions rd).Nodup) := by
  refine ⟨?_, ?_, ?_, ?_⟩
  · intro xs rd hd hne
    cases xs with
    | nil => exact absurd rfl hne
    | cons x xs' => rfl
  · intro fields
    rfl
  · intro fields k
    rw [deriveOptions, mem_deriveFold]
    simp only [List.not_mem_nil, false_or]
    have hvals : jsValues (.obj fields) = fields.map Prod.snd := rfl
    constructor
    · rintro ⟨v, hv, hcond, hk⟩
      rw [hvals, List.mem_map] at hv
      obtain ⟨p, hp, rfl⟩ := hv
      exact ⟨p, hp, hcond, hk⟩
    · rintro ⟨p, hp, hcond, hk⟩
      refine ⟨p.2, ?_, hcond, hk⟩
      rw [hvals, List.mem_map]
      exact ⟨p, hp, rfl⟩
  · intro rd
    rw [deriveOptions]
    exact nodup_deriveFold _ _ List.nodup_nil

/-- Witness for C9 at a concrete input: a non-empty fetched list is used
verbatim. -/
theorem culture_options_witness :
    cultureOptions (.arr [JSValue.str "x"]) (.obj []) true = [JSValue.str "x"] :=
  culture_options_derivation.1 [JSValue.str "x"] (.obj []) true (List.cons_ne_nil _ _)

/-- C10: after any `pointerenter` or `pointermove` the tooltip's display is
`block`, after any `pointerleave` it is `none`; a filter change leaves the
visibility untouched, and `positionTip` never writes the display style. -/
theorem tooltip_visibility_invariant (out : InitOutcome) (provinces : List String)
    (filterVal : String) (st : OverlayState) :
    (∀ (pid : String) (e : PEvt),
        (stepEvent out provinces filterVal st (.pointerEnter pid e)).display = "block") ∧
    (∀ (pid : String) (e : PEvt),
        (stepEvent out provinces filterVal st (.pointerMove pid e)).display = "block") ∧
    (∀ pid : String,
        (stepEvent out provinces filterVal st (.pointerLeave pid)).display = "none") ∧
    (∀ v : String,
        (stepEvent out provinces filterVal st (.filterChange v)).display = st.display) ∧
    (∀ (w t : Rect) (e : PEvt),
        (positionTipEffects w t e).all (fun x => !x.isSetDisplay) = true) := by
  refine ⟨?_, ?_, ?_, ?_, ?_⟩
  · intro pid e
    rw [stepEvent]
    obtain ⟨s, hs⟩ := buildTooltipHTML_ok pid
      (if out.hasData then getProp out.regionData pid else .undefined) out.locData (.str filterVal)
    simp only [hs]
  · intro pid e
    rw [stepEvent]
    split
    · obtain ⟨s, hs⟩ := buildTooltipHTML_ok pid
        (if out.hasData then getProp out.regionData pid else .undefined) out.locData
        (.str filterVal)
      simp only [hs]
    · next hblock => simpa using hblock
  · intro pid
    rfl
  · intro v
    rfl
  · intro w t e
    rw [List.all_eq_true]
    intro x hx
    rcases positionTip_shape w t e x hx with ⟨n, rfl⟩ | ⟨n, rfl⟩ <;> rfl
